import Mathlib

/-!
Verification development for the hablits habit-tracking domain engine.

The TypeScript sources are shallowly embedded:
* JS `Record<string, T>` objects become association lists (`Rec`) with
  first-match lookup; JS objects never hold a key twice and all operations
  below preserve that.
* ISO timestamp strings become epoch milliseconds (`Int`); `new Date(s).getTime()`
  is the identity under this embedding, and `duration * 60 * 60 * 1000` keeps
  its literal arithmetic.
* The reducer `appReducer` embeds the app's `appReducer` switch case by case
  for the action families the development reasons about; presentation-only
  snapshot fields (theme, pet cosmetics, onboarding flag, ...) that no embedded
  action reads or writes are omitted from the snapshot record.
-/

namespace Hablits

/-- JS `Record<string, α>` embedded as an association list with unique keys. -/
abbrev Rec (α : Type) : Type := List (String × α)

/-- `m[k]` on a JS object: `some v` when the key is present, `none` otherwise. -/
def getR {α : Type} (m : Rec α) (k : String) : Option α :=
  match m with
  | [] => none
  | (k', v) :: rest => if k' = k then some v else getR rest k

/-- `m[k] = v` on a JS object: replace the binding in place, or append it. -/
def setR {α : Type} (m : Rec α) (k : String) (v : α) : Rec α :=
  match m with
  | [] => [(k, v)]
  | (k', v') :: rest => if k' = k then (k, v) :: rest else (k', v') :: setR rest k v

/-- `delete m[k]` on a JS object. -/
def delR {α : Type} (m : Rec α) (k : String) : Rec α :=
  m.filter (fun p => !(p.1 == k))

/-- `for (const [k, v] of Object.entries(m)) out[k] = f(k, v)`. -/
def mapR {α β : Type} (f : String → α → β) (m : Rec α) : Rec β :=
  m.map (fun p => (p.1, f p.1 p.2))

/-- A step within a routine (`RoutineStep` in `types/index.ts`). -/
structure RoutineStep where
  id : String
  name : String
  order : Nat
deriving Repr, DecidableEq

/-- A habit (`Habit` in `types/index.ts`), restricted to the fields the embedded
operations read: `id`, `isRoutine?` and `steps?`. -/
structure Habit where
  id : String
  name : String
  isRoutine : Bool
  steps : Option (List RoutineStep)
deriving Repr, DecidableEq

/-- Skip/fail marks for one day (`DayMarks` in `types/index.ts`). -/
structure DayMarks where
  skip : List String
  fail : List String
deriving Repr, DecidableEq

/-- Schedule configuration for a habit (`HabitSchedule` in `types/index.ts`). -/
structure HabitSchedule where
  time : String
  duration : Nat
  recurring : String
  recurringDays : Option (List Bool)
deriving Repr, DecidableEq

/-- An active fasting timer (`ActiveFast` in `types/index.ts`); the two ISO
timestamps are embedded as epoch milliseconds. -/
structure ActiveFast where
  habitId : String
  startTime : Int
  duration : Int
  targetTime : Int
deriving Repr, DecidableEq

/-- The domain part of the app snapshot (`AppState` in `types/index.ts`).
Presentation preferences (theme, sfx, pet cosmetics, identity filter,
onboarding flag, notification settings) are omitted: no embedded action
touches them. -/
structure AppState where
  habits : List Habit
  logs : Rec (List String)
  marks : Rec DayMarks
  dayPlanTimes : Rec String
  dayPlanSchedules : Rec HabitSchedule
  notes : Rec (Rec String)
  routineStepLogs : Rec (Rec (List String))
  activeFasts : Rec ActiveFast
deriving Repr, DecidableEq

/-- The domain fields of `defaultState` in the state context module. -/
def defaultState : AppState :=
  { habits := [], logs := [], marks := [], dayPlanTimes := [],
    dayPlanSchedules := [], notes := [], routineStepLogs := [], activeFasts := [] }

/-- The reducer actions the development reasons about (`Action` union in the
state context module). `LOAD_STATE` carries the replacement snapshot restricted
to its domain fields. `OTHER` stands for any action object whose `type` tag
matches none of the reducer's cases, so dispatching it reaches the reducer's
`default` branch. -/
inductive Action where
  | LOAD_STATE (payload : AppState)
  | DELETE_HABIT (habitId : String)
  | TOGGLE_HABIT (habitId : String) (date : String)
  | SKIP_HABIT (habitId : String) (date : String)
  | FAIL_HABIT (habitId : String) (date : String)
  | CLEAR_DAY (date : String)
  | TOGGLE_ROUTINE_STEP (habitId : String) (stepId : String) (date : String)
  | START_FAST (habitId : String) (duration : Int) (startTime : Int)
  | UPDATE_FAST_START_TIME (habitId : String) (startTime : Int)
  | END_FAST (habitId : String)
  | OTHER
deriving Repr, DecidableEq

/-- The state engine: `appReducer(state, action)` from the state context
module, case by case. -/
def appReducer (s : AppState) (a : Action) : AppState :=
  match a with
  | .LOAD_STATE payload =>
      -- the source spreads the payload and backfills `routineStepLogs`,
      -- `activeFasts` and `hapticsEnabled` only when absent in a legacy
      -- payload; on the embedded total record those `||` backfills are the
      -- identity, so the case installs the payload wholesale
      payload
  | .DELETE_HABIT habitId =>
      let habits := s.habits.filter (fun h => !(h.id == habitId))
      let logs := mapR (fun _ ids => ids.filter (fun i => !(i == habitId))) s.logs
      let marks := mapR (fun _ dm =>
        ({ skip := dm.skip.filter (fun i => !(i == habitId)),
           fail := dm.fail.filter (fun i => !(i == habitId)) } : DayMarks)) s.marks
      let notes := mapR (fun _ dayNotes => delR dayNotes habitId) s.notes
      let dayPlanTimes := delR s.dayPlanTimes habitId
      let dayPlanSchedules := delR s.dayPlanSchedules habitId
      { s with habits := habits, logs := logs, marks := marks, notes := notes,
               dayPlanTimes := dayPlanTimes, dayPlanSchedules := dayPlanSchedules }
  | .TOGGLE_HABIT habitId date =>
      let dayLogs := (getR s.logs date).getD []
      let logs :=
        if habitId ∈ dayLogs then
          setR s.logs date (dayLogs.filter (fun i => !(i == habitId)))
        else
          setR s.logs date (dayLogs ++ [habitId])
      let marks :=
        match getR s.marks date with
        | some dm =>
            setR s.marks date
              ({ skip := dm.skip.filter (fun i => !(i == habitId)),
                 fail := dm.fail.filter (fun i => !(i == habitId)) })
        | none => s.marks
      { s with logs := logs, marks := marks }
  | .SKIP_HABIT habitId date =>
      let logs := setR s.logs date
        (((getR s.logs date).getD []).filter (fun i => !(i == habitId)))
      let dm := (getR s.marks date).getD ({ skip := [], fail := [] })
      let marks := setR s.marks date
        ({ skip := dm.skip.filter (fun i => !(i == habitId)) ++ [habitId],
           fail := dm.fail.filter (fun i => !(i == habitId)) })
      { s with logs := logs, marks := marks }
  | .FAIL_HABIT habitId date =>
      let logs := setR s.logs date
        (((getR s.logs date).getD []).filter (fun i => !(i == habitId)))
      let dm := (getR s.marks date).getD ({ skip := [], fail := [] })
      let marks := setR s.marks date
        ({ skip := dm.skip.filter (fun i => !(i == habitId)),
           fail := dm.fail.filter (fun i => !(i == habitId)) ++ [habitId] })
      { s with logs := logs, marks := marks }
  | .CLEAR_DAY date =>
      let logs := setR s.logs date []
      let marks := setR s.marks date ({ skip := [], fail := [] } : DayMarks)
      { s with logs := logs, marks := marks }
  | .TOGGLE_ROUTINE_STEP habitId stepId date =>
      let dayMap := (getR s.routineStepLogs date).getD []
      let habitSteps := (getR dayMap habitId).getD []
      let newSteps :=
        if stepId ∈ habitSteps then
          habitSteps.filter (fun i => !(i == stepId))
        else
          habitSteps ++ [stepId]
      let routineStepLogs := setR s.routineStepLogs date (setR dayMap habitId newSteps)
      { s with routineStepLogs := routineStepLogs }
  | .START_FAST habitId duration startTime =>
      let fast : ActiveFast :=
        { habitId := habitId, startTime := startTime, duration := duration,
          targetTime := startTime + duration * 60 * 60 * 1000 }
      { s with activeFasts := setR s.activeFasts habitId fast }
  | .UPDATE_FAST_START_TIME habitId startTime =>
      match getR s.activeFasts habitId with
      | none => s
      | some f =>
          let fast : ActiveFast :=
            { f with startTime := startTime,
                     targetTime := startTime + f.duration * 60 * 60 * 1000 }
          { s with activeFasts := setR s.activeFasts habitId fast }
  | .END_FAST habitId =>
      { s with activeFasts := delR s.activeFasts habitId }
  | .OTHER => s

/-- Dispatching a list of actions in order. -/
def applyAll (s : AppState) (acts : List Action) : AppState :=
  acts.foldl appReducer s

/-- The loop of `calculateStreak` in `src/utils/habits.ts`. `fuel` is the
number of loop iterations still allowed (the loop bound is 365), `i` the
current backward day offset; `dayLogs d` embeds `logs[dateStr(d)] || []` where
`d` is the calendar day number `today - i`. -/
def streakGo (dayLogs : Int → List String) (today : Int) (habitId : String) :
    Nat → Int → Nat → Nat → Nat
  | 0, _, streak, _ => streak
  | fuel + 1, i, streak, missedDays =>
    if habitId ∈ dayLogs (today - i) then
      streakGo dayLogs today habitId fuel (i + 1) (streak + 1) missedDays
    else
      if missedDays + 1 > 1 then streak
      else streakGo dayLogs today habitId fuel (i + 1) streak (missedDays + 1)

/-- `calculateStreak` from `src/utils/habits.ts`: scan backward from today for
up to 365 days with a one-miss grace counter. -/
def calculateStreak (dayLogs : Int → List String) (today : Int)
    (habitId : String) : Nat :=
  streakGo dayLogs today habitId 365 0 0 0

/-- Milliseconds in a day. -/
def msPerDay : Int := 86400000

/-- Milliseconds in a minute. -/
def msPerMinute : Int := 60000

/-- The UTC calendar day index that `toISOString().slice(0, 10)` prints for an
epoch instant (the `YYYY-MM-DD` string is embedded as its day index, a
bijection). -/
def utcDayIndex (t : Int) : Int := t.fdiv msPerDay

/-- The local calendar day index of epoch instant `t` in a timezone `tz`
minutes east of UTC (a JS environment with fixed offset `tz`). -/
def localDayIndex (t tz : Int) : Int := (t + tz * msPerMinute).fdiv msPerDay

/-- `d.setHours(0, 0, 0, 0)`: truncate epoch instant `t` to the local midnight
of its local calendar day. -/
def setHoursZero (t tz : Int) : Int := t - (t + tz * msPerMinute).emod msPerDay

/-- `dateStr` from `src/utils/dates.ts`: truncate to local midnight, then
format the result with `toISOString` (which prints the UTC calendar day). -/
def dateStr (t tz : Int) : Int := utcDayIndex (setHoursZero t tz)

/-- `todayStr` from `src/utils/dates.ts`:
`new Date().toISOString().slice(0, 10)` — the UTC calendar day of now. -/
def todayStr (t : Int) : Int := utcDayIndex t

/-- `getRemainingTime` from the fasting utilities: `max(0, target - now)`
in milliseconds. -/
def getRemainingTime (fast : ActiveFast) (now : Int) : Int :=
  max 0 (fast.targetTime - now)

/-- `isFastComplete` from the fasting utilities: the remaining time is zero. -/
def isFastComplete (fast : ActiveFast) (now : Int) : Bool :=
  getRemainingTime fast now == 0

/-- The inner `data` object of a parsed backup payload, restricted to the
fields the import contract names; `none` marks an absent field. -/
structure ImportedData where
  habits : Option (List Habit)
  identities : Option (List String)
deriving Repr, DecidableEq

/-- A parsed backup payload `{version, exportedAt, data}`; `none` marks an
absent field. -/
structure ImportPayload where
  version : Option String
  exportedAt : Option String
  data : Option ImportedData
deriving Repr, DecidableEq

/-- JS truthiness of an optional string field: absent (`undefined`/`null`) and
the empty string are falsy. -/
def strTruthy : Option String → Bool
  | none => false
  | some str => !(str == "")

/-- `importData` from the export module, applied to an already-parsed payload:
`if (!imported.data || !imported.version) throw new Error(...)`, otherwise
`return imported.data` (no further validation). -/
def importData (p : ImportPayload) : Except String ImportedData :=
  match p.data with
  | none => Except.error "Invalid backup file format"
  | some d =>
      if strTruthy p.version then Except.ok d
      else Except.error "Invalid backup file format"

/-- The completed-step list `routineStepLogs[date]?.[habitId] || []`. -/
def completedStepsOf (s : AppState) (habitId date : String) : List String :=
  ((getR s.routineStepLogs date).bind (fun m => getR m habitId)).getD []

/-- The id list of a habit's steps (`habit.steps`, empty when absent). -/
def stepIds (habit : Habit) : List String :=
  (habit.steps.getD []).map (fun st => st.id)

/-- The habit is marked done in the daily log for `date`. -/
def habitDone (s : AppState) (habitId date : String) : Prop :=
  habitId ∈ (getR s.logs date).getD []

/-- Two id lists hold the same set of ids. -/
def sameSet (A B : List String) : Prop :=
  (∀ x ∈ A, x ∈ B) ∧ (∀ x ∈ B, x ∈ A)

/-- Routine-consistency for one habit and day: marked done iff the recorded
completed-step set equals the full step-id set. -/
def routineConsistent (s : AppState) (habit : Habit) (date : String) : Prop :=
  habitDone s habit.id date ↔ sameSet (completedStepsOf s habit.id date) (stepIds habit)

/-- `handleToggleRoutineStep` from `TodayScreen.tsx`: dispatch
`TOGGLE_ROUTINE_STEP`, then — reading the pre-dispatch state — decide whether
the toggle has just completed the step set or regressed it below full, and
dispatch a follow-up `TOGGLE_HABIT` accordingly. -/
def handleToggleRoutineStep (s : AppState) (habitId stepId today : String) :
    AppState :=
  let s1 := appReducer s (.TOGGLE_ROUTINE_STEP habitId stepId today)
  match (s.habits.find? (fun h => h.id == habitId)).bind (fun h => h.steps) with
  | none => s1
  | some steps =>
      let completedSteps := completedStepsOf s habitId today
      let totalSteps : Int := steps.length
      let isTogglingOn : Prop := stepId ∉ completedSteps
      let newCompletedCount : Int :=
        if isTogglingOn then completedSteps.length + 1 else completedSteps.length - 1
      let logsToday := (getR s.logs today).getD []
      if newCompletedCount = totalSteps ∧ habitId ∉ logsToday then
        appReducer s1 (.TOGGLE_HABIT habitId today)
      else if newCompletedCount < totalSteps ∧ habitId ∈ logsToday then
        appReducer s1 (.TOGGLE_HABIT habitId today)
      else s1

/-- The trailing status-cycle dispatch chain of `handleToggle` in
`TodayScreen.tsx` (`none → done`, `done → skip`, `skip → fail`, and the final
`isFailed` branch that dispatches `TOGGLE_HABIT`). -/
def toggleDispatch (s0 : AppState) (habitId today : String)
    (isDone isSkipped isFailed : Bool) : AppState :=
  if !isDone && !isSkipped && !isFailed then
    appReducer s0 (.TOGGLE_HABIT habitId today)
  else if isDone then appReducer s0 (.SKIP_HABIT habitId today)
  else if isSkipped then appReducer s0 (.FAIL_HABIT habitId today)
  else if isFailed then appReducer s0 (.TOGGLE_HABIT habitId today)
  else s0

/-- `handleToggle` from `TodayScreen.tsx`: the UI driver of the daily status
cycle, including the routine force-complete / force-clear step dispatches. -/
def handleToggle (s : AppState) (habitId today : String) : AppState :=
  let isDone := ((getR s.logs today).getD []).contains habitId
  let isSkipped := ((getR s.marks today).map (fun dm => dm.skip.contains habitId)).getD false
  let isFailed := ((getR s.marks today).map (fun dm => dm.fail.contains habitId)).getD false
  match (s.habits.find? (fun h => h.id == habitId)) with
  | none => toggleDispatch s habitId today isDone isSkipped isFailed
  | some habit =>
      match habit.steps with
      | none => toggleDispatch s habitId today isDone isSkipped isFailed
      | some steps =>
          if habit.isRoutine && (!isDone && !isSkipped && !isFailed) then
            let completedSteps := completedStepsOf s habitId today
            let s' := steps.foldl (fun acc step =>
              if completedSteps.contains step.id then acc
              else appReducer acc (.TOGGLE_ROUTINE_STEP habitId step.id today)) s
            appReducer s' (.TOGGLE_HABIT habitId today)
          else
            let s0 :=
              if habit.isRoutine && (isDone || isSkipped || isFailed) then
                let completedSteps := completedStepsOf s habitId today
                steps.foldl (fun acc step =>
                  if completedSteps.contains step.id then
                    appReducer acc (.TOGGLE_ROUTINE_STEP habitId step.id today)
                  else acc) s
              else s
            toggleDispatch s0 habitId today isDone isSkipped isFailed

/-- How many of the three per-day status categories (completed, skipped,
failed) hold `habitId` on `date`. -/
def statusCount (s : AppState) (date habitId : String) : Nat :=
  (if habitId ∈ (getR s.logs date).getD [] then 1 else 0) +
  (if habitId ∈ ((getR s.marks date).getD { skip := [], fail := [] }).skip then 1 else 0) +
  (if habitId ∈ ((getR s.marks date).getD { skip := [], fail := [] }).fail then 1 else 0)

/-- The membership-exclusivity invariant: each habit id is in at most one of
the three per-day categories, for every day and id. -/
def exclusiveInv (s : AppState) : Prop :=
  ∀ date habitId, statusCount s date habitId ≤ 1

/-- Every per-day id list of the snapshot (daily log, skip list, fail list,
and each routine-step completion list) is duplicate-free. -/
def nodupInv (s : AppState) : Prop :=
  (∀ p ∈ s.logs, p.2.Nodup) ∧
  (∀ p ∈ s.marks, p.2.skip.Nodup ∧ p.2.fail.Nodup) ∧
  (∀ p ∈ s.routineStepLogs, ∀ q ∈ p.2, q.2.Nodup)

/-- The three per-day status actions of the completion cycle. -/
def isStatusAction : Action → Prop
  | .TOGGLE_HABIT _ _ => True
  | .SKIP_HABIT _ _ => True
  | .FAIL_HABIT _ _ => True
  | _ => False

/-- The wholesale snapshot-replacement action. -/
def isLoadState : Action → Prop
  | .LOAD_STATE _ => True
  | _ => False

instance (A B : List String) : Decidable (sameSet A B) := by
  unfold sameSet; infer_instance

instance (s : AppState) (habitId date : String) :
    Decidable (habitDone s habitId date) := by
  unfold habitDone; infer_instance

instance (s : AppState) (habit : Habit) (date : String) :
    Decidable (routineConsistent s habit date) := by
  unfold routineConsistent; infer_instance

instance (s : AppState) : Decidable (nodupInv s) := by
  unfold nodupInv; infer_instance

instance (a : Action) : Decidable (isStatusAction a) := by
  unfold isStatusAction; cases a <;> infer_instance

instance (a : Action) : Decidable (isLoadState a) := by
  unfold isLoadState; cases a <;> infer_instance

/-! ### Concrete instances used by witnesses and counterexamples -/

/-- Logs for the streak-grace scenario: completed today (day 0) and the day
before yesterday (day -2), absent everywhere else. -/
def graceLogs : Int → List String :=
  fun d => if d = 0 ∨ d = -2 then ["h"] else []

/-- A routine habit with a single step. -/
def oneStepRoutine : Habit :=
  { id := "h1", name := "routine", isRoutine := true,
    steps := some [{ id := "s1", name := "step one", order := 1 }] }

/-- A snapshot holding just `oneStepRoutine`, with nothing logged. -/
def oneStepState : AppState := { defaultState with habits := [oneStepRoutine] }

/-- A routine habit with two steps. -/
def twoStepRoutine : Habit :=
  { id := "h3", name := "routine two", isRoutine := true,
    steps := some [{ id := "a", name := "first", order := 1 },
                   { id := "b", name := "second", order := 2 }] }

/-- A snapshot holding `twoStepRoutine` with its first step completed on day
`"d"` and the habit not yet marked done. -/
def twoStepState : AppState :=
  { defaultState with habits := [twoStepRoutine],
                      routineStepLogs := [("d", [("h3", ["a"])])] }

/-- A plain (non-routine) habit. -/
def simpleHabit : Habit :=
  { id := "h2", name := "simple", isRoutine := false, steps := none }

/-- A snapshot holding just `simpleHabit`, with nothing logged. -/
def simpleState : AppState := { defaultState with habits := [simpleHabit] }

/-- `handleToggle` iterated on `simpleHabit` for day `"d"`. -/
def toggleIter : Nat → AppState
  | 0 => simpleState
  | n + 1 => handleToggle (toggleIter n) "h2" "d"

/-- An active fast for habit `"h1"`: 16 hours starting at epoch 0. -/
def sampleFast : ActiveFast :=
  { habitId := "h1", startTime := 0, duration := 16, targetTime := 57600000 }

/-- A snapshot in which habit `"h1"` has a routine-step log entry and an
active fast, besides a daily log, marks, a note and a schedule. -/
def residueState : AppState :=
  { habits := [oneStepRoutine],
    logs := [("d", ["h1"])],
    marks := [("e", { skip := ["h1"], fail := [] })],
    dayPlanTimes := [("h1", "09:00")],
    dayPlanSchedules := [("h1", { time := "09:00", duration := 30,
                                  recurring := "daily", recurringDays := none })],
    notes := [("d", [("h1", "a note")])],
    routineStepLogs := [("d", [("h1", ["s1"])])],
    activeFasts := [("h1", sampleFast)] }

/-- A snapshot holding `sampleFast` for habit `"h1"`. -/
def fastState : AppState := { defaultState with activeFasts := [("h1", sampleFast)] }

/-- A backup payload with `version` and `data` present but with the `habits`
and `identities` arrays missing inside `data`. -/
def payloadNoArrays : ImportPayload :=
  { version := some "1.0.0", exportedAt := some "2024-01-15T00:00:00.000Z",
    data := some { habits := none, identities := none } }

/-- A snapshot whose daily log for day `"d"` holds the id `"h"` twice. -/
def dupPayload : AppState := { defaultState with logs := [("d", ["h", "h"])] }

/-- A well-formed backup payload. -/
def goodData : ImportedData := { habits := some [], identities := some [] }

/-- A backup payload wrapping `goodData` with a version tag. -/
def goodPayload : ImportPayload :=
  { version := some "1.0.0", exportedAt := none, data := some goodData }

/-! ### Lemmas about the `Rec` embedding of JS objects -/

theorem getR_setR_self {α : Type} (m : Rec α) (k : String) (v : α) :
    getR (setR m k v) k = some v := by
  induction m with
  | nil => simp [setR, getR]
  | cons p rest ih =>
      obtain ⟨k', v'⟩ := p
      by_cases h : k' = k
      · subst h; simp [setR, getR]
      · simp [setR, getR, h, ih]

theorem getR_setR_ne {α : Type} (m : Rec α) {k k' : String} (h : k ≠ k') (v : α) :
    getR (setR m k v) k' = getR m k' := by
  induction m with
  | nil => simp [setR, getR, h]
  | cons p rest ih =>
      obtain ⟨k0, v0⟩ := p
      by_cases h0 : k0 = k
      · subst h0; simp [setR, getR, h]
      · simp only [setR, if_neg h0, getR]
        by_cases h1 : k0 = k'
        · simp [h1]
        · simp [h1, ih]

theorem getR_delR_self {α : Type} (m : Rec α) (k : String) :
    getR (delR m k) k = none := by
  induction m with
  | nil => simp [delR, getR]
  | cons p rest ih =>
      obtain ⟨k0, v0⟩ := p
      by_cases h0 : k0 = k
      · subst h0; simpa [delR, getR] using ih
      · simpa [delR, getR, h0] using ih

theorem getR_mem {α : Type} {m : Rec α} {k : String} {v : α}
    (h : getR m k = some v) : (k, v) ∈ m := by
  induction m with
  | nil => simp [getR] at h
  | cons p rest ih =>
      obtain ⟨k0, v0⟩ := p
      by_cases h0 : k0 = k
      · subst h0
        have hv : some v0 = some v := by simpa [getR] using h
        obtain rfl := Option.some.inj hv
        exact List.mem_cons_self _ _
      · simp only [getR, if_neg h0] at h
        exact List.mem_cons_of_mem _ (ih h)

theorem mem_setR {α : Type} {m : Rec α} {k : String} {v : α} {p : String × α}
    (h : p ∈ setR m k v) : p = (k, v) ∨ p ∈ m := by
  induction m with
  | nil => simpa [setR] using h
  | cons q rest ih =>
      obtain ⟨k0, v0⟩ := q
      by_cases h0 : k0 = k
      · subst h0
        rcases List.mem_cons.mp (by simpa [setR] using h) with h1 | h1
        · exact Or.inl h1
        · exact Or.inr (List.mem_cons_of_mem _ h1)
      · rcases List.mem_cons.mp (by simpa [setR, h0] using h) with h1 | h1
        · exact Or.inr (by simp [h1])
        · rcases ih h1 with h2 | h2
          · exact Or.inl h2
          · exact Or.inr (List.mem_cons_of_mem _ h2)

/-- One unfolding of the `calculateStreak` loop. -/
theorem streakGo_succ (f : Int → List String) (t : Int) (hid : String)
    (fuel : Nat) (i : Int) (streak missed : Nat) :
    streakGo f t hid (fuel + 1) i streak missed =
      if hid ∈ f (t - i) then streakGo f t hid fuel (i + 1) (streak + 1) missed
      else if missed + 1 > 1 then streak
      else streakGo f t hid fuel (i + 1) streak (missed + 1) := rfl

/-- C3: `calculateStreak` scans backward from today keeping a cumulative
`missedDays` counter, counts every completed day, and stops as soon as
`missedDays` exceeds 1; hence logs with today completed, yesterday absent,
the day before completed and every other scanned day absent give streak 2. -/
theorem streak_grace (dayLogs : Int → List String) (today : Int) (habitId : String)
    (h0 : habitId ∈ dayLogs today)
    (hm1 : habitId ∉ dayLogs (today - 1))
    (h2 : habitId ∈ dayLogs (today - 2))
    (h3 : ∀ i : Int, 3 ≤ i → i ≤ 364 → habitId ∉ dayLogs (today - i)) :
    calculateStreak dayLogs today habitId = 2 := by
  have h3' := h3 3 (by norm_num) (by norm_num)
  unfold calculateStreak
  rw [show (365 : Nat) = 364 + 1 from rfl, streakGo_succ]
  norm_num
  rw [if_pos h0]
  rw [show (364 : Nat) = 363 + 1 from rfl, streakGo_succ]
  norm_num
  rw [if_neg hm1]
  rw [show (363 : Nat) = 362 + 1 from rfl, streakGo_succ]
  norm_num
  rw [if_pos h2]
  rw [show (362 : Nat) = 361 + 1 from rfl, streakGo_succ]
  norm_num
  exact fun hmem => absurd hmem h3'

/-- Witness for C3 at the concrete `graceLogs` scenario. -/
theorem streak_grace_witness : calculateStreak graceLogs 0 "h" = 2 :=
  streak_grace graceLogs 0 "h" (by decide) (by decide) (by decide)
    (fun i hi _ hmem => by
      have hne : ¬((0 : Int) - i = 0 ∨ (0 : Int) - i = -2) := by omega
      simp only [graceLogs, if_neg hne] at hmem
      exact absurd hmem (List.not_mem_nil _))

/-- C6 (code bug evidence): `dateStr` truncates to local midnight but then
formats with `toISOString`, which prints the UTC day; in a UTC+2 environment
the instant `86400000` (local day 1, 02:00) is keyed as day 0, not its local
calendar day 1. Moreover `todayStr` formats the raw instant in UTC, so in a
UTC-5 environment instant `93600000` (local day 0, 21:00) gets `dateStr` key
0 but `todayStr` key 1, making `isToday(now)` false. -/
theorem dateStr_not_local_day :
    dateStr 86400000 120 = 0 ∧ localDayIndex 86400000 120 = 1 ∧
    dateStr 93600000 (-300) = 0 ∧ todayStr 93600000 = 1 := by
  refine ⟨by decide, by decide, by decide, by decide⟩

/-- C7 (amended): the engine is total and an unrecognized action returns the
snapshot unchanged; but a `TOGGLE_HABIT` whose habit id does not exist in
`habits` is not a no-op for logs: the reducer records the dangling id. -/
theorem engine_total_dangling_recorded :
    (∀ s : AppState, appReducer s .OTHER = s) ∧
    defaultState.habits = [] ∧
    getR (appReducer defaultState (.TOGGLE_HABIT "ghost" "d")).logs "d" =
      some ["ghost"] :=
  ⟨fun _ => rfl, rfl, rfl⟩

/-- C7 counterexample: toggling a habit id absent from the habits array does
change the logs of the snapshot (the dangling id is recorded), refuting the
claimed no-op. -/
theorem toggle_dangling_not_noop :
    defaultState.habits = [] ∧ getR defaultState.logs "d" = none ∧
    (appReducer defaultState (.TOGGLE_HABIT "ghost" "d")).logs ≠
      defaultState.logs := by
  refine ⟨rfl, rfl, by decide⟩

/-- C8 (amended): import raises the format error iff the payload's `data`
field is missing or its `version` field is missing (or empty, hence falsy);
otherwise it returns the contained `data` object with no validation of the
inner `habits`/`identities` arrays. -/
theorem importData_error_iff (p : ImportPayload) :
    ((∃ e, importData p = Except.error e) ↔
      (p.data = none ∨ strTruthy p.version = false)) ∧
    (∀ d, p.data = some d → strTruthy p.version = true →
      importData p = Except.ok d) := by
  unfold importData
  cases hd : p.data with
  | none => simp
  | some d =>
      by_cases hv : strTruthy p.version
      · simp [hv]
      · have hv' : strTruthy p.version = false := by simpa using hv
        simp [hv']

/-- Witness for C8 at a well-formed payload. -/
theorem importData_error_iff_witness :
    importData goodPayload = Except.ok goodData :=
  (importData_error_iff goodPayload).2 goodData rfl rfl

/-- C8 counterexample: a payload having `version` and `data` but missing the
required `habits`/`identities` arrays inside `data` is imported without any
error, refuting the claimed rejection. -/
theorem import_missing_arrays_accepted :
    payloadNoArrays.data = some { habits := none, identities := none } ∧
    importData payloadNoArrays =
      Except.ok { habits := none, identities := none } :=
  ⟨rfl, rfl⟩

/-- C9: the fasting lifecycle — `START_FAST` stores
`targetTime = startTime + duration·3600000 ms`; `UPDATE_FAST_START_TIME`
recomputes the target from the stored duration and is a no-op when no fast
exists; `END_FAST` removes the record unconditionally; and once
`now ≥ targetTime` the remaining time is 0 and the fast reports complete. -/
theorem fasting_lifecycle (s1 s2 s3 : AppState) (hid : String) (f : ActiveFast)
    (d t t2 now : Int)
    (hf : getR s1.activeFasts hid = some f)
    (hn : getR s2.activeFasts hid = none)
    (hnow : f.targetTime ≤ now) :
    getR (appReducer s3 (.START_FAST hid d t)).activeFasts hid =
      some { habitId := hid, startTime := t, duration := d,
             targetTime := t + d * 60 * 60 * 1000 } ∧
    getR (appReducer s1 (.UPDATE_FAST_START_TIME hid t2)).activeFasts hid =
      some { f with startTime := t2,
                    targetTime := t2 + f.duration * 60 * 60 * 1000 } ∧
    appReducer s2 (.UPDATE_FAST_START_TIME hid t2) = s2 ∧
    getR (appReducer s3 (.END_FAST hid)).activeFasts hid = none ∧
    getRemainingTime f now = 0 ∧ isFastComplete f now = true := by
  have hle : f.targetTime - now ≤ 0 := by omega
  refine ⟨?_, ?_, ?_, ?_, ?_, ?_⟩
  · simp [appReducer, getR_setR_self]
  · simp [appReducer, hf, getR_setR_self]
  · simp [appReducer, hn]
  · simp [appReducer, getR_delR_self]
  · simp [getRemainingTime, max_eq_left hle]
  · simp [isFastComplete, getRemainingTime, max_eq_left hle]

/-- Witness for C9 at `fastState` / `sampleFast`. -/
theorem fasting_lifecycle_witness :
    getRemainingTime sampleFast 57600000 = 0 ∧
    isFastComplete sampleFast 57600000 = true := by
  have hmain := fasting_lifecycle fastState defaultState defaultState "h1"
    sampleFast 16 0 3600000 57600000 rfl rfl (by decide)
  exact ⟨hmain.2.2.2.2.1, hmain.2.2.2.2.2⟩

/-- C2 (amended): `DELETE_HABIT` removes the habit from the habits array and
its id from every daily log, both mark lists, every per-day note map and both
schedule maps — but it does not touch `routineStepLogs` or `activeFasts`, so
references there survive the deletion. -/
theorem delete_habit_cascade (s : AppState) (hid : String) :
    (∀ h ∈ (appReducer s (.DELETE_HABIT hid)).habits, h.id ≠ hid) ∧
    (∀ p ∈ (appReducer s (.DELETE_HABIT hid)).logs, hid ∉ p.2) ∧
    (∀ p ∈ (appReducer s (.DELETE_HABIT hid)).marks,
        hid ∉ p.2.skip ∧ hid ∉ p.2.fail) ∧
    (∀ p ∈ (appReducer s (.DELETE_HABIT hid)).notes, getR p.2 hid = none) ∧
    getR (appReducer s (.DELETE_HABIT hid)).dayPlanTimes hid = none ∧
    getR (appReducer s (.DELETE_HABIT hid)).dayPlanSchedules hid = none ∧
    (appReducer s (.DELETE_HABIT hid)).routineStepLogs = s.routineStepLogs ∧
    (appReducer s (.DELETE_HABIT hid)).activeFasts = s.activeFasts := by
  refine ⟨?_, ?_, ?_, ?_, ?_, ?_, rfl, rfl⟩
  · intro h hmem
    simp only [appReducer, List.mem_filter] at hmem
    simpa using hmem.2
  · intro p hmem
    simp only [appReducer, mapR, List.mem_map] at hmem
    obtain ⟨q, hq, rfl⟩ := hmem
    simp [List.mem_filter]
  · intro p hmem
    simp only [appReducer, mapR, List.mem_map] at hmem
    obtain ⟨q, hq, rfl⟩ := hmem
    constructor <;> simp [List.mem_filter]
  · intro p hmem
    simp only [appReducer, mapR, List.mem_map] at hmem
    obtain ⟨q, hq, rfl⟩ := hmem
    exact getR_delR_self _ _
  · exact getR_delR_self _ _
  · exact getR_delR_self _ _

/-- C2 counterexample: after deleting habit `"h1"`, its routine-step log entry
and its active fast are still present in the snapshot — residual references
remain, refuting the claimed all-collection cascade. -/
theorem delete_habit_residue :
    getR ((getR (appReducer residueState (.DELETE_HABIT "h1")).routineStepLogs
            "d").getD []) "h1" = some ["s1"] ∧
    getR (appReducer residueState (.DELETE_HABIT "h1")).activeFasts "h1" =
      some sampleFast ∧
    (appReducer residueState (.DELETE_HABIT "h1")).habits = [] :=
  ⟨rfl, rfl, rfl⟩

/-- C4 (code bug evidence): driving the UI toggle from the `none` state walks
`done` (toggle 1), `skipped` (toggle 2), `failed` (toggle 3) — but the fourth
toggle dispatches `TOGGLE_HABIT` from the `failed` state, which adds the id to
the daily log, landing in `done` rather than back in `none`; the code's own
comment says "Fail → None (clear all)". Applying the raw `TOGGLE_HABIT`
reducer action 4 times from `none` does return logs and marks for the habit
to `none` (it is a 2-cycle). -/
theorem fourth_toggle_yields_done :
    ((getR (toggleIter 1).logs "d").getD [] = ["h2"] ∧
      getR (toggleIter 1).marks "d" = none) ∧
    getR (toggleIter 2).marks "d" = some ({ skip := ["h2"], fail := [] }) ∧
    getR (toggleIter 3).marks "d" = some ({ skip := [], fail := ["h2"] }) ∧
    ((getR (toggleIter 4).logs "d").getD [] = ["h2"] ∧
      getR (toggleIter 4).marks "d" = some ({ skip := [], fail := [] })) ∧
    getR (applyAll simpleState (List.replicate 4 (.TOGGLE_HABIT "h2" "d"))).logs
        "d" = some [] ∧
    (applyAll simpleState (List.replicate 4 (.TOGGLE_HABIT "h2" "d"))).marks
      = [] := by
  exact ⟨⟨rfl, rfl⟩, rfl, rfl, ⟨rfl, rfl⟩, rfl, rfl⟩

/-- Bound on the status count of any (day, habit) pair after `TOGGLE_HABIT`. -/
theorem statusCount_toggle_le (s : AppState) (h0 d0 d h : String) :
    statusCount (appReducer s (.TOGGLE_HABIT h0 d0)) d h ≤
      max (statusCount s d h) 1 := by
  rw [le_max_iff]
  unfold statusCount
  by_cases hd : d0 = d
  · subst hd
    by_cases hh : h = h0
    · subst hh
      right
      rcases hm : getR s.marks d0 with _ | dm <;>
        by_cases hmem : h ∈ (getR s.logs d0).getD [] <;>
          simp [appReducer, hm, hmem, getR_setR_self, List.mem_filter]
    · left
      rcases hm : getR s.marks d0 with _ | dm <;>
        by_cases hmem : h0 ∈ (getR s.logs d0).getD [] <;>
          simp [appReducer, hm, hmem, hh, getR_setR_self, List.mem_filter]
  · left
    have hne : d0 ≠ d := hd
    have hlogs : getR (appReducer s (.TOGGLE_HABIT h0 d0)).logs d
        = getR s.logs d := by
      rcases hm : getR s.marks d0 with _ | dm <;>
        by_cases hmem : h0 ∈ (getR s.logs d0).getD [] <;>
          simp [appReducer, hm, hmem, getR_setR_ne _ hne]
    have hmarks : getR (appReducer s (.TOGGLE_HABIT h0 d0)).marks d
        = getR s.marks d := by
      rcases hm : getR s.marks d0 with _ | dm <;>
        by_cases hmem : h0 ∈ (getR s.logs d0).getD [] <;>
          simp [appReducer, hm, hmem, getR_setR_ne _ hne]
    rw [hlogs, hmarks]

/-- Bound on the status count of any (day, habit) pair after `SKIP_HABIT`. -/
theorem statusCount_skip_le (s : AppState) (h0 d0 d h : String) :
    statusCount (appReducer s (.SKIP_HABIT h0 d0)) d h ≤
      max (statusCount s d h) 1 := by
  rw [le_max_iff]
  unfold statusCount
  by_cases hd : d0 = d
  · subst hd
    by_cases hh : h = h0
    · subst hh
      right
      simp [appReducer, getR_setR_self, List.mem_filter, List.mem_append]
    · left
      simp [appReducer, getR_setR_self, List.mem_filter, List.mem_append, hh]
  · left
    have hne : d0 ≠ d := hd
    simp [appReducer, getR_setR_ne _ hne]

/-- Bound on the status count of any (day, habit) pair after `FAIL_HABIT`. -/
theorem statusCount_fail_le (s : AppState) (h0 d0 d h : String) :
    statusCount (appReducer s (.FAIL_HABIT h0 d0)) d h ≤
      max (statusCount s d h) 1 := by
  rw [le_max_iff]
  unfold statusCount
  by_cases hd : d0 = d
  · subst hd
    by_cases hh : h = h0
    · subst hh
      right
      simp [appReducer, getR_setR_self, List.mem_filter, List.mem_append]
    · left
      simp [appReducer, getR_setR_self, List.mem_filter, List.mem_append, hh]
  · left
    have hne : d0 ≠ d := hd
    simp [appReducer, getR_setR_ne _ hne]

/-- One toggle/skip/fail transition preserves the exclusivity invariant. -/
theorem exclusive_step (s : AppState) (a : Action) (ha : isStatusAction a)
    (hinv : exclusiveInv s) : exclusiveInv (appReducer s a) := by
  cases a with
  | TOGGLE_HABIT h0 d0 =>
      intro d h
      exact (statusCount_toggle_le s h0 d0 d h).trans (max_le (hinv d h) le_rfl)
  | SKIP_HABIT h0 d0 =>
      intro d h
      exact (statusCount_skip_le s h0 d0 d h).trans (max_le (hinv d h) le_rfl)
  | FAIL_HABIT h0 d0 =>
      intro d h
      exact (statusCount_fail_le s h0 d0 d h).trans (max_le (hinv d h) le_rfl)
  | LOAD_STATE p => exact ha.elim
  | DELETE_HABIT x => exact ha.elim
  | CLEAR_DAY x => exact ha.elim
  | TOGGLE_ROUTINE_STEP x y z => exact ha.elim
  | START_FAST x y z => exact ha.elim
  | UPDATE_FAST_START_TIME x y => exact ha.elim
  | END_FAST x => exact ha.elim
  | OTHER => exact ha.elim

/-- C5: for every day and habit id, after any sequence of `TOGGLE_HABIT`,
`SKIP_HABIT` and `FAIL_HABIT` actions applied to a snapshot satisfying the
exclusivity invariant, a habit id is in at most one of
{completed, skipped, failed} — each transition clears the other two
categories for the day it touches. -/
theorem exclusivity_preserved (s : AppState) (acts : List Action)
    (hacts : ∀ a ∈ acts, isStatusAction a) (hinv : exclusiveInv s) :
    exclusiveInv (applyAll s acts) := by
  induction acts generalizing s with
  | nil => exact hinv
  | cons a rest ih =>
      exact ih (appReducer s a)
        (fun b hb => hacts b (List.mem_cons_of_mem _ hb))
        (exclusive_step s a (hacts a (List.mem_cons_self _ _)) hinv)

/-- Witness for C5: a toggle/skip/fail run from the empty snapshot. -/
theorem exclusivity_preserved_witness :
    exclusiveInv (applyAll defaultState
      [.TOGGLE_HABIT "h2" "d", .SKIP_HABIT "h2" "d", .FAIL_HABIT "h2" "d"]) :=
  exclusivity_preserved defaultState _ (by decide)
    (fun d h => by simp [statusCount, getR])

/-- A day's logged id list, with its default, is duplicate-free. -/
theorem getD_nodup {m : Rec (List String)} (h1 : ∀ p ∈ m, p.2.Nodup)
    (k : String) : ((getR m k).getD []).Nodup := by
  rcases hm : getR m k with _ | L
  · simp
  · simpa using h1 (k, L) (getR_mem hm)

/-- Entries of a day's routine-step map, with its default, are duplicate-free. -/
theorem getD_nested_nodup {m : Rec (Rec (List String))}
    (h1 : ∀ p ∈ m, ∀ q ∈ p.2, q.2.Nodup) (k : String) :
    ∀ q ∈ (getR m k).getD [], q.2.Nodup := by
  rcases hm : getR m k with _ | mm
  · simp
  · intro q hq
    exact h1 (k, mm) (getR_mem hm) q (by simpa using hq)

/-- A day's marks, with their default, have duplicate-free skip/fail lists. -/
theorem getD_marks_nodup {m : Rec DayMarks}
    (h1 : ∀ p ∈ m, p.2.skip.Nodup ∧ p.2.fail.Nodup) (k : String) :
    ((getR m k).getD { skip := [], fail := [] }).skip.Nodup ∧
    ((getR m k).getD { skip := [], fail := [] }).fail.Nodup := by
  rcases hm : getR m k with _ | dm
  · simp
  · simpa using h1 (k, dm) (getR_mem hm)

/-- Every single engine action other than `LOAD_STATE` preserves
duplicate-freedom of all per-day id lists: each such transition filters the id
out before re-inserting it, or only appends it when absent. -/
theorem nodup_step (s : AppState) (a : Action) (hns : ¬ isLoadState a)
    (hinv : nodupInv s) : nodupInv (appReducer s a) := by
  obtain ⟨hl, hmk, hr⟩ := hinv
  cases a with
  | LOAD_STATE p => exact absurd trivial hns
  | DELETE_HABIT hid =>
      refine ⟨?_, ?_, ?_⟩
      · intro p hp
        simp only [appReducer, mapR, List.mem_map] at hp
        obtain ⟨q, hq, rfl⟩ := hp
        exact (hl q hq).filter _
      · intro p hp
        simp only [appReducer, mapR, List.mem_map] at hp
        obtain ⟨q, hq, rfl⟩ := hp
        exact ⟨((hmk q hq).1).filter _, ((hmk q hq).2).filter _⟩
      · intro p hp
        exact hr p (by simpa [appReducer, mapR] using hp)
  | TOGGLE_HABIT h0 d0 =>
      refine ⟨?_, ?_, ?_⟩
      · intro p hp
        by_cases hmem : h0 ∈ (getR s.logs d0).getD []
        · simp only [appReducer, if_pos hmem] at hp
          rcases mem_setR hp with rfl | hp'
          · exact (getD_nodup hl d0).filter _
          · exact hl _ hp'
        · simp only [appReducer, if_neg hmem] at hp
          rcases mem_setR hp with rfl | hp'
          · simp [List.nodup_append, getD_nodup hl d0, hmem]
          · exact hl _ hp'
      · intro p hp
        rcases hm : getR s.marks d0 with _ | dm
        · simp only [appReducer, hm] at hp
          exact hmk p hp
        · simp only [appReducer, hm] at hp
          rcases mem_setR hp with rfl | hp'
          · have hdm := hmk (d0, dm) (getR_mem hm)
            exact ⟨hdm.1.filter _, hdm.2.filter _⟩
          · exact hmk _ hp'
      · intro p hp
        exact hr p (by simpa [appReducer] using hp)
  | SKIP_HABIT h0 d0 =>
      refine ⟨?_, ?_, ?_⟩
      · intro p hp
        simp only [appReducer] at hp
        rcases mem_setR hp with rfl | hp'
        · exact (getD_nodup hl d0).filter _
        · exact hl _ hp'
      · intro p hp
        simp only [appReducer] at hp
        rcases mem_setR hp with rfl | hp'
        · have hdm := getD_marks_nodup hmk d0
          constructor
          · simp [List.nodup_append, hdm.1.filter _, List.mem_filter]
          · exact hdm.2.filter _
        · exact hmk _ hp'
      · intro p hp
        exact hr p (by simpa [appReducer] using hp)
  | FAIL_HABIT h0 d0 =>
      refine ⟨?_, ?_, ?_⟩
      · intro p hp
        simp only [appReducer] at hp
        rcases mem_setR hp with rfl | hp'
        · exact (getD_nodup hl d0).filter _
        · exact hl _ hp'
      · intro p hp
        simp only [appReducer] at hp
        rcases mem_setR hp with rfl | hp'
        · have hdm := getD_marks_nodup hmk d0
          constructor
          · exact hdm.1.filter _
          · simp [List.nodup_append, hdm.2.filter _, List.mem_filter]
        · exact hmk _ hp'
      · intro p hp
        exact hr p (by simpa [appReducer] using hp)
  | CLEAR_DAY d0 =>
      refine ⟨?_, ?_, ?_⟩
      · intro p hp
        simp only [appReducer] at hp
        rcases mem_setR hp with rfl | hp'
        · simp
        · exact hl _ hp'
      · intro p hp
        simp only [appReducer] at hp
        rcases mem_setR hp with rfl | hp'
        · simp
        · exact hmk _ hp'
      · intro p hp
        exact hr p (by simpa [appReducer] using hp)
  | TOGGLE_ROUTINE_STEP h0 st0 d0 =>
      refine ⟨?_, ?_, ?_⟩
      · intro p hp
        exact hl p (by simpa [appReducer] using hp)
      · intro p hp
        exact hmk p (by simpa [appReducer] using hp)
      · intro p hp
        by_cases hmem : st0 ∈ (getR ((getR s.routineStepLogs d0).getD []) h0).getD []
        · simp only [appReducer, if_pos hmem] at hp
          rcases mem_setR hp with rfl | hp'
          · intro q hq
            rcases mem_setR hq with rfl | hq'
            · exact (getD_nodup (getD_nested_nodup hr d0) h0).filter _
            · exact getD_nested_nodup hr d0 q hq'
          · exact hr _ hp'
        · simp only [appReducer, if_neg hmem] at hp
          rcases mem_setR hp with rfl | hp'
          · intro q hq
            rcases mem_setR hq with rfl | hq'
            · simp [List.nodup_append,
                    getD_nodup (getD_nested_nodup hr d0) h0, hmem]
            · exact getD_nested_nodup hr d0 q hq'
          · exact hr _ hp'
  | START_FAST x y z => exact ⟨hl, hmk, hr⟩
  | UPDATE_FAST_START_TIME x y =>
      rcases hm : getR s.activeFasts x with _ | f <;>
        simp only [appReducer, hm] <;> exact ⟨hl, hmk, hr⟩
  | END_FAST x => exact ⟨hl, hmk, hr⟩
  | OTHER => exact ⟨hl, hmk, hr⟩

/-- C10 (amended): every per-day id list stays duplicate-free under any
sequence of engine actions other than `LOAD_STATE`, started from a
duplicate-free snapshot; `LOAD_STATE` is the exception, since it installs the
payload's lists verbatim. -/
theorem nodup_preserved (s : AppState) (acts : List Action)
    (hacts : ∀ a ∈ acts, ¬ isLoadState a) (hinv : nodupInv s) :
    nodupInv (applyAll s acts) := by
  induction acts generalizing s with
  | nil => exact hinv
  | cons a rest ih =>
      exact ih (appReducer s a)
        (fun b hb => hacts b (List.mem_cons_of_mem _ hb))
        (nodup_step s a (hacts a (List.mem_cons_self _ _)) hinv)

/-- Witness for C10: a mixed action run from the empty snapshot. -/
theorem nodup_preserved_witness :
    nodupInv (applyAll defaultState
      [.TOGGLE_HABIT "h2" "d", .TOGGLE_ROUTINE_STEP "h1" "s1" "d",
       .SKIP_HABIT "h2" "d"]) :=
  nodup_preserved defaultState _ (by decide) (by decide)

/-- C10 counterexample: `LOAD_STATE` is an engine action, and with a payload
whose day-`"d"` log holds an id twice it replaces a duplicate-free snapshot by
one violating duplicate-freedom — the invariant is not preserved by every
engine action. -/
theorem load_state_installs_duplicates :
    nodupInv defaultState ∧
    ¬ nodupInv (appReducer defaultState (.LOAD_STATE dupPayload)) ∧
    (appReducer defaultState (.LOAD_STATE dupPayload)).logs =
      [("d", ["h", "h"])] := by
  refine ⟨by decide, by decide, rfl⟩

/-- `completedStepsOf` collapses the option-chained lookup into a nested
record lookup. -/
theorem completedStepsOf_eq (s : AppState) (hid d : String) :
    completedStepsOf s hid d =
      (getR ((getR s.routineStepLogs d).getD []) hid).getD [] := by
  rcases hm : getR s.routineStepLogs d with _ | mm <;>
    simp [completedStepsOf, hm, getR]

/-- Effect of the `TOGGLE_ROUTINE_STEP` reducer case on the completed-step
list of the toggled habit and day. -/
theorem completedStepsOf_toggle (s : AppState) (hid stepId d : String) :
    completedStepsOf (appReducer s (.TOGGLE_ROUTINE_STEP hid stepId d)) hid d =
      if stepId ∈ completedStepsOf s hid d then
        (completedStepsOf s hid d).filter (fun i => !(i == stepId))
      else completedStepsOf s hid d ++ [stepId] := by
  rw [completedStepsOf_eq s hid d]
  unfold completedStepsOf
  simp only [appReducer, getR_setR_self, Option.some_bind, Option.getD_some]

/-- `TOGGLE_HABIT` flips the done status of the toggled habit and day. -/
theorem habitDone_toggle (s : AppState) (hid d : String) :
    habitDone (appReducer s (.TOGGLE_HABIT hid d)) hid d ↔
      ¬ habitDone s hid d := by
  unfold habitDone
  by_cases hmem : hid ∈ (getR s.logs d).getD []
  · simp [appReducer, hmem, getR_setR_self, List.mem_filter]
  · simp [appReducer, hmem, getR_setR_self]

/-- `TOGGLE_HABIT` leaves routine-step logs untouched. -/
theorem completedStepsOf_toggle_habit (s : AppState) (hid hid2 d d2 : String) :
    completedStepsOf (appReducer s (.TOGGLE_HABIT hid2 d2)) hid d =
      completedStepsOf s hid d := rfl

/-- A duplicate-free list has at most as many elements as a list containing
it. -/
theorem length_le_of_nodup_subset {C ids : List String} (hndC : C.Nodup)
    (hsub : ∀ x ∈ C, x ∈ ids) : C.length ≤ ids.length := by
  calc C.length = C.toFinset.card := (List.toFinset_card_of_nodup hndC).symm
    _ ≤ ids.toFinset.card := Finset.card_le_card (fun x hx =>
        List.mem_toFinset.mpr (hsub x (List.mem_toFinset.mp hx)))
    _ ≤ ids.length := ids.toFinset_card_le

/-- For duplicate-free lists with `C ⊆ ids`, set-equality is equivalent to
equal lengths. -/
theorem sameSet_iff_length {C ids : List String} (hndC : C.Nodup)
    (hndI : ids.Nodup) (hsub : ∀ x ∈ C, x ∈ ids) :
    sameSet C ids ↔ C.length = ids.length := by
  have hsubF : C.toFinset ⊆ ids.toFinset := fun x hx =>
    List.mem_toFinset.mpr (hsub x (List.mem_toFinset.mp hx))
  constructor
  · intro hss
    have hsupF : ids.toFinset ⊆ C.toFinset := fun x hx =>
      List.mem_toFinset.mpr (hss.2 x (List.mem_toFinset.mp hx))
    have heq : C.toFinset = ids.toFinset := Finset.Subset.antisymm hsubF hsupF
    calc C.length = C.toFinset.card := (List.toFinset_card_of_nodup hndC).symm
      _ = ids.toFinset.card := by rw [heq]
      _ = ids.length := List.toFinset_card_of_nodup hndI
  · intro hlen
    have hcard : ids.toFinset.card ≤ C.toFinset.card := by
      rw [List.toFinset_card_of_nodup hndC, List.toFinset_card_of_nodup hndI, hlen]
    have heq : C.toFinset = ids.toFinset :=
      Finset.eq_of_subset_of_card_le hsubF hcard
    exact ⟨hsub, fun x hx => List.mem_toFinset.mp (heq ▸ List.mem_toFinset.mpr hx)⟩

/-- C1 counterexample: on a one-step routine with nothing logged, a single
`TOGGLE_ROUTINE_STEP` reducer transition makes the completed-step set equal
the full step set without marking the habit done — the reducer transition
itself does not synchronize the parent habit, refuting the claim. -/
theorem toggle_routine_step_no_sync :
    ¬ routineConsistent
        (appReducer oneStepState (.TOGGLE_ROUTINE_STEP "h1" "s1" "d"))
        oneStepRoutine "d" := by decide

/-- C1 (amended): the reducer's `TOGGLE_ROUTINE_STEP` case only flips step
membership; the parent habit is synchronized by the UI handler
`handleToggleRoutineStep`, which dispatches a follow-up `TOGGLE_HABIT` in the
same invocation. That composite handler preserves the routine-consistency
invariant for the touched habit and day, given the structural side conditions
(the handler's habit lookup finds the habit, its step ids and the day's
completed-step list are duplicate-free, the completed list is a subset of the
step ids, and the toggled step is one of the habit's steps). -/
theorem routine_step_handler_sync (s : AppState) (habit : Habit)
    (steps : List RoutineStep) (stepId d : String)
    (hfind : s.habits.find? (fun h => h.id == habit.id) = some habit)
    (hsteps : habit.steps = some steps)
    (hndI : (stepIds habit).Nodup)
    (hstep : stepId ∈ stepIds habit)
    (hndC : (completedStepsOf s habit.id d).Nodup)
    (hsub : ∀ x ∈ completedStepsOf s habit.id d, x ∈ stepIds habit)
    (hinv : routineConsistent s habit d) :
    routineConsistent (handleToggleRoutineStep s habit.id stepId d) habit d := by
  have hidsl : (stepIds habit).length = steps.length := by
    simp [stepIds, hsteps]
  have hlen_le := length_le_of_nodup_subset hndC hsub
  have hiff := sameSet_iff_length hndC hndI hsub
  have hC := completedStepsOf_toggle s habit.id stepId d
  unfold handleToggleRoutineStep
  rw [hfind, Option.some_bind, hsteps]
  dsimp only
  by_cases hmem : stepId ∈ completedStepsOf s habit.id d
  · -- toggling the step OFF
    rw [if_pos hmem] at hC
    rw [if_neg (not_not_intro hmem)]
    have hnotpost : ¬ sameSet ((completedStepsOf s habit.id d).filter
        (fun i => !(i == stepId))) (stepIds habit) := by
      intro hss
      have := hss.2 stepId hstep
      simp [List.mem_filter] at this
    split_ifs with h1 h2
    · exfalso
      have h1a := h1.1
      omega
    · -- the habit was done: the follow-up TOGGLE_HABIT un-marks it
      unfold routineConsistent
      rw [completedStepsOf_toggle_habit, hC]
      refine iff_of_false ?_ hnotpost
      intro hp
      exact (habitDone_toggle _ habit.id d).mp hp h2.2
    · -- the habit was not done: no follow-up dispatch
      have hnd : habit.id ∉ (getR s.logs d).getD [] := by
        intro hd
        have hss := hinv.mp hd
        have hlC := hiff.mp hss
        exact h2 ⟨by omega, hd⟩
      unfold routineConsistent
      rw [hC]
      exact iff_of_false hnd hnotpost
  · -- toggling the step ON
    rw [if_neg hmem] at hC
    rw [if_pos hmem]
    have hndC2 : ((completedStepsOf s habit.id d) ++ [stepId]).Nodup := by
      simp [List.nodup_append, hndC, hmem]
    have hsub2 : ∀ x ∈ (completedStepsOf s habit.id d) ++ [stepId],
        x ∈ stepIds habit := by
      intro x hx
      rcases List.mem_append.mp hx with hx2 | hx2
      · exact hsub x hx2
      · simp at hx2
        exact hx2 ▸ hstep
    have hiff2 := sameSet_iff_length hndC2 hndI hsub2
    split_ifs with h1 h2
    · -- this toggle completes the step set: follow-up TOGGLE_HABIT marks done
      unfold routineConsistent
      rw [completedStepsOf_toggle_habit, hC]
      refine iff_of_true ?_ ?_
      · exact (habitDone_toggle _ habit.id d).mpr h1.2
      · refine hiff2.mpr ?_
        have h1a := h1.1
        simp only [List.length_append, List.length_singleton]
        omega
    · -- impossible under the invariant: marked done but steps were not full
      exfalso
      have hss := hinv.mp h2.2
      have := hiff.mp hss
      have h2a := h2.1
      omega
    · -- still below the full set: no dispatch
      have hnd : habit.id ∉ (getR s.logs d).getD [] := by
        intro hd
        exact hmem ((hinv.mp hd).2 stepId hstep)
      have hne2 : (completedStepsOf s habit.id d).length + 1 ≠
          (stepIds habit).length := by
        intro he
        exact h1 ⟨by omega, hnd⟩
      unfold routineConsistent
      rw [hC]
      refine iff_of_false hnd ?_
      intro hss
      have := hiff2.mp hss
      simp only [List.length_append, List.length_singleton] at this
      omega

/-- Witness for C1: completing the second of two steps through the handler
marks the routine done, keeping the invariant. -/
theorem routine_step_handler_sync_witness :
    routineConsistent
      (handleToggleRoutineStep twoStepState twoStepRoutine.id "b" "d")
      twoStepRoutine "d" :=
  routine_step_handler_sync twoStepState twoStepRoutine
    [{ id := "a", name := "first", order := 1 },
     { id := "b", name := "second", order := 2 }] "b" "d"
    (by decide) rfl (by decide) (by decide) (by decide) (by decide) (by decide)

end Hablits


